import Mathlib

/-!
Verification development for the GSP service of the citra emulator
(`src/core/hle/service/gsp.cpp`): a shallow embedding of the GSP
command-submission front-end and proofs of its specified properties.
Machine integers (`u32`) are embedded as `Nat` with explicit reduction
modulo `2^32` wherever the C arithmetic can overflow.
-/

namespace GSP_GPU

/-- The modulus of 32-bit unsigned arithmetic. -/
def u32Mod : Nat := 4294967296

/-- 32-bit addition (wrapping, as C `u32 + u32`). -/
def add32 (a b : Nat) : Nat := (a + b) % u32Mod

/-- 32-bit subtraction (wrapping, as C `u32 - u32`); arguments below `u32Mod`. -/
def sub32 (a b : Nat) : Nat := (a + u32Mod - b % u32Mod) % u32Mod

/-- GSP shared memory GX command buffer header: a `u32` with
`BitField<0,8> index` and `BitField<8,8> number_commands`
(from `union GX_CmdBufferHeader` in gsp.cpp). -/
structure GX_CmdBufferHeader where
  hex : Nat
deriving DecidableEq

/-- Bits 0..7 of the header word: the current command index. -/
def GX_CmdBufferHeader.index (h : GX_CmdBufferHeader) : Nat := h.hex % 256

/-- Bits 8..15 of the header word: the pending-command count. -/
def GX_CmdBufferHeader.number_commands (h : GX_CmdBufferHeader) : Nat :=
  h.hex / 256 % 256

/-- Store `v & 0xFF` into bits 8..15, leaving the other bits unchanged
(the `BitField<8,8,u32>` assignment). -/
def GX_CmdBufferHeader.setNumberCommands (h : GX_CmdBufferHeader) (v : Nat) :
    GX_CmdBufferHeader :=
  ⟨h.hex % 256 + v % 256 * 256 + h.hex / 65536 * 65536⟩

/-- Modelled from the spec: the emulated device register file
(`GPU::Write<u32>` / `GPU::Read<u32>` live in `core/hw/gpu`, which is not
part of this fragment). The spec describes it as a flat 32-bit register
space with `write32(address, value)` and `read32(address) -> value`. -/
def RegFile : Type := Nat → Nat

/-- Modelled from the spec: `write32` stores a word at an address. -/
def write32 (f : RegFile) (a v : Nat) : RegFile :=
  fun x => if x = a then v else f x

/-- Modelled from the spec: `read32` returns the last word stored. -/
def read32 (f : RegFile) (a : Nat) : Nat := f a

/-- Modelled from the spec: symbolic ids of the dispatcher's target
registers. The numeric values of `GPU::Regs::CommandProcessor`,
`GPU::Regs::MemoryFill` and `GPU::Regs::DisplayTransfer` live in
`core/hw/gpu.h`, outside this fragment; the spec names them as the
command-processor, memory-fill and display-transfer register groups, and
every claim depends only on the group and the word offset within it. -/
inductive RegId where
  | commandProcessor (off : Nat)
  | memoryFill (off : Nat)
  | displayTransfer (off : Nat)
deriving DecidableEq

/-- Observable effects of the GSP service on its collaborators:
absolute-address register writes/reads (the `GPU::Write`/`GPU::Read`
calls of `WriteHWRegs`/`ReadHWRegs`), dispatcher register writes
(`WriteGPURegister`), guest-memory copies (`memcpy`), debugger
notifications, and `ERROR_LOG` diagnostics. -/
inductive Event where
  | hwWrite (addr value : Nat)
  | hwRead (addr : Nat)
  | regWrite (id : RegId) (value : Nat)
  | memcpy (dest source size : Nat)
  | debugCommandProcessed (slotIndex : Nat)
  | debugCommandList (address size : Nat)
  | errorLog (tag : String) (args : List Nat)
deriving DecidableEq

/-- Result of a `WriteHWRegs` / `ReadHWRegs` service call: the register
file afterwards, the trace of effects, and (for reads) the words stored
into the guest destination buffer, in order. -/
structure HWResult where
  regs : RegFile
  events : List Event
  output : List Nat

/-- The write loop of `WriteHWRegs`: `n` iterations of
`GPU::Write<u32>(reg_addr + 0x1EB00000, *src); src++; reg_addr += 4`,
with the `u32` address arithmetic wrapping. (The C loop is driven by
`size`, which the guard has ensured is a multiple of 4, so it runs
exactly `size / 4` times.) -/
def hwWriteLoop (f : RegFile) (reg_addr : Nat) (src : Nat → Nat) :
    Nat → RegFile × List Event
  | 0 => (f, [])
  | n + 1 =>
    let a := add32 reg_addr 0x1EB00000
    let r := hwWriteLoop (write32 f a (src 0)) (add32 reg_addr 4)
      (fun i => src (i + 1)) n
    (r.1, Event.hwWrite a (src 0) :: r.2)

/-- The read loop of `ReadHWRegs`: `n` iterations of
`GPU::Read<u32>(*dst, reg_addr + 0x1EB00000); dst++; reg_addr += 4`. -/
def hwReadLoop (f : RegFile) (reg_addr : Nat) :
    Nat → List Event × List Nat
  | 0 => ([], [])
  | n + 1 =>
    let a := add32 reg_addr 0x1EB00000
    let r := hwReadLoop f (add32 reg_addr 4) n
    (Event.hwRead a :: r.1, read32 f a :: r.2)

/-- `WriteHWRegs` (gsp.cpp): validates `reg_addr + size >= 0x420000`
(computed in `u32`) and `size % 4 != 0`; on either failure logs an error
and returns without writing; otherwise writes each source word to the
device register file in ascending address order. -/
def WriteHWRegs (regs : RegFile) (reg_addr size : Nat) (src : Nat → Nat) :
    HWResult :=
  if 0x420000 ≤ add32 reg_addr size then
    ⟨regs, [Event.errorLog "Write address out of range" [reg_addr, size]], []⟩
  else if size % 4 ≠ 0 then
    ⟨regs, [Event.errorLog "Invalid size" [size]], []⟩
  else
    let r := hwWriteLoop regs reg_addr src (size / 4)
    ⟨r.1, r.2, []⟩

/-- `ReadHWRegs` (gsp.cpp): same validation as `WriteHWRegs`; on success
reads each register in ascending address order into the guest
destination buffer. -/
def ReadHWRegs (regs : RegFile) (reg_addr size : Nat) : HWResult :=
  if 0x420000 ≤ add32 reg_addr size then
    ⟨regs, [Event.errorLog "Read address out of range" [reg_addr, size]], []⟩
  else if size % 4 ≠ 0 then
    ⟨regs, [Event.errorLog "Invalid size" [size]], []⟩
  else
    let r := hwReadLoop regs reg_addr (size / 4)
    ⟨regs, r.1, r.2⟩

/-- Modelled from the spec: the decoded GX command record. The record's
physical layout and the `GXCommandId` discriminant values live in
`core/hle/service/gsp.h`, outside this fragment; the spec's data model
gives the tagged union below, with `unknown` covering every unrecognized
discriminant (carrying the raw kind value). `setDisplayTransfer` and
`setTextureCopy` share the `image_copy` payload, as in the source. -/
inductive GXCommand where
  | requestDma (source_address dest_address size : Nat)
  | setCommandListFirst
  | setCommandListLast (address size : Nat)
  | setMemoryFill (start1 end1 value1 start2 end2 value2 : Nat)
  | setDisplayTransfer (in_buffer_address out_buffer_address
      in_buffer_size out_buffer_size flags : Nat)
  | setTextureCopy (in_buffer_address out_buffer_address
      in_buffer_size out_buffer_size flags : Nat)
  | unknown (id : Nat)
deriving DecidableEq

/-- The per-thread GSP command region: the header word plus the ring of
32-byte command record slots (slot `i` at byte offset `0x20 + i * 0x20`),
with the records already decoded (see `GXCommand`). -/
structure GSPState where
  header : GX_CmdBufferHeader
  slots : Nat → GXCommand

/-- The `switch (command.id)` body of `TriggerCmdReqQueue`: the effect
trace of executing one decoded command. Register writes go through
`WriteGPURegister` (symbolic ids, see `RegId`); `>> 3` on a `u32` is
division by 8; `end - start` is wrapping `u32` subtraction. -/
def execCommand : GXCommand → List Event
  | .requestDma source_address dest_address size =>
    [.memcpy dest_address source_address size]
  | .setCommandListFirst => []
  | .setCommandListLast address size =>
    [.regWrite (.commandProcessor 2) (address / 8),
     .regWrite (.commandProcessor 0) (size / 8),
     .regWrite (.commandProcessor 4) 1,
     .debugCommandList address size]
  | .setMemoryFill start1 end1 value1 start2 end2 value2 =>
    [.regWrite (.memoryFill 0) (start1 / 8),
     .regWrite (.memoryFill 1) (end1 / 8),
     .regWrite (.memoryFill 2) (sub32 end1 start1),
     .regWrite (.memoryFill 3) value1,
     .regWrite (.memoryFill 4) (start2 / 8),
     .regWrite (.memoryFill 5) (end2 / 8),
     .regWrite (.memoryFill 6) (sub32 end2 start2),
     .regWrite (.memoryFill 7) value2]
  | .setDisplayTransfer a b c d fl =>
    [.regWrite (.displayTransfer 0) (a / 8),
     .regWrite (.displayTransfer 1) (b / 8),
     .regWrite (.displayTransfer 3) c,
     .regWrite (.displayTransfer 2) d,
     .regWrite (.displayTransfer 4) fl,
     .regWrite (.displayTransfer 6) 1]
  | .setTextureCopy a b c d fl =>
    [.regWrite (.displayTransfer 0) (a / 8),
     .regWrite (.displayTransfer 1) (b / 8),
     .regWrite (.displayTransfer 3) c,
     .regWrite (.displayTransfer 2) d,
     .regWrite (.displayTransfer 4) fl,
     .regWrite (.displayTransfer 6) 1]
  | .unknown id => [.errorLog "unknown command" [id]]

/-- `GX_FinishCommand` (gsp.cpp): notifies the debugger with the record
at the header's current index, then runs
`header->number_commands = header->number_commands - 1` — a `u32`
subtraction stored back through the 8-bit bit field. The index is not
advanced (the source carries an open `TODO` for it). -/
def GX_FinishCommand (s : GSPState) : GSPState × List Event :=
  (⟨s.header.setNumberCommands (sub32 s.header.number_commands 1), s.slots⟩,
   [.debugCommandProcessed s.header.index])

/-- `TriggerCmdReqQueue` (gsp.cpp): reads the header, dispatches the one
command record at slot `header.index`, then calls `GX_FinishCommand`. -/
def TriggerCmdReqQueue (s : GSPState) : GSPState × List Event :=
  let evs := execCommand (s.slots s.header.index)
  let r := GX_FinishCommand s
  (r.1, evs ++ r.2)

/-- True for the events that touch the device register file (a hardware
effect); debugger notifications and logs are pure observers. -/
def Event.isHardwareEffect : Event → Bool
  | .hwWrite _ _ => true
  | .hwRead _ => true
  | .regWrite _ _ => true
  | .memcpy _ _ _ => true
  | _ => false

/-- Modelled from the spec: the kernel synchronization event
(`core/hle/kernel/event`, outside this fragment). The spec describes a
binary completion primitive with `signal` and `setPermanentlySignaled`;
`locked = false` means signaled, and a permanently locked event can no
longer change its locked state. -/
structure KEvent where
  locked : Bool
  permanent_locked : Bool
deriving DecidableEq

/-- Modelled from the spec: `Kernel::SetEventLocked` sets the locked
flag unless the event is permanently locked. -/
def SetEventLocked (e : KEvent) (locked : Bool) : KEvent :=
  if e.permanent_locked then e else ⟨locked, e.permanent_locked⟩

/-- Modelled from the spec: `Kernel::SetPermanentLock` sets the
permanent latch. -/
def SetPermanentLock (e : KEvent) (permanent : Bool) : KEvent :=
  ⟨e.locked, permanent⟩

/-- Modelled from the spec: a guest check/wait observes the event
signaled exactly when it is not locked. -/
def isSignaled (e : KEvent) : Bool := !e.locked

/-- Modelled from the spec: acquiring (waiting on) a signaled event
re-locks it unless it is permanently latched, in which case every
acquisition passes through and leaves it signaled. -/
def acquireEvent (e : KEvent) : KEvent :=
  if e.permanent_locked then e else ⟨true, e.permanent_locked⟩

/-- Modelled from the spec: `_assert_msg_` (in `common/`, outside this
fragment) is a fatal, unrecoverable assertion failure. A service call
either returns normally or halts emulation with an assertion failure. -/
inductive SvcResult (α : Type) where
  | ok (a : α)
  | assertionFailure (msg : String)
deriving DecidableEq

/-- The whole modelled system: the kernel's events (by handle), the
device register file, the GSP command region of the single active
thread, and the service globals `g_event`, `g_thread_id`,
`g_shared_memory` from gsp.cpp. `halted` records that a fatal assertion
has fired. -/
structure SysState where
  events : Nat → KEvent
  regs : RegFile
  gsp : GSPState
  g_event : Nat
  g_thread_id : Nat
  g_shared_memory : Nat
  halted : Bool

/-- `RegisterInterruptRelayQueue` (gsp.cpp): stores the event handle in
`g_event`, asserts it is non-zero (`_assert_msg_`, fatal), then
`SetEventLocked(g_event, false)` and `SetPermanentLock(g_event, true)`,
and returns result 0, the thread id and the shared-memory handle in the
command buffer. -/
def RegisterInterruptRelayQueue (st : SysState) (_flags handle : Nat) :
    SvcResult (SysState × Nat × Nat × Nat) :=
  if handle = 0 then .assertionFailure "handle is not valid" else
  .ok ({ st with
          g_event := handle,
          events := fun x =>
            if x = handle then
              SetPermanentLock (SetEventLocked (st.events handle) false) true
            else st.events x },
        0, st.g_thread_id, st.g_shared_memory)

/-- The operations the system can perform after a registration: the
implemented GSP service calls plus a guest check/acquire of an event. -/
inductive SysOp where
  | writeHW (reg_addr size : Nat) (src : Nat → Nat)
  | readHW (reg_addr size : Nat)
  | trigger
  | registerQueue (flags handle : Nat)
  | acquire (handle : Nat)

/-- One system step. A failed assertion halts the system; a halted
system makes no further transitions. -/
def sysStep (st : SysState) (op : SysOp) : SysState :=
  if st.halted then st else
  match op with
  | .writeHW reg_addr size src =>
    { st with regs := (WriteHWRegs st.regs reg_addr size src).regs }
  | .readHW _ _ => st
  | .trigger => { st with gsp := (TriggerCmdReqQueue st.gsp).1 }
  | .registerQueue flags handle =>
    match RegisterInterruptRelayQueue st flags handle with
    | .ok (st', _, _, _) => st'
    | .assertionFailure _ => { st with halted := true }
  | .acquire handle =>
    { st with events := fun x =>
        if x = handle then acquireEvent (st.events handle) else st.events x }

/-- Run a sequence of system operations. -/
def sysRun (st : SysState) : List SysOp → SysState
  | [] => st
  | op :: ops => sysRun (sysStep st op) ops

/-- An all-zero device register file, used as a concrete start state. -/
def zeroRegs : RegFile := fun _ => 0

/-- A concrete command region: header word `0x0100` (index 0, one
pending command), every slot holding the no-op `SET_COMMAND_LIST_FIRST`. -/
def gspExample : GSPState := ⟨⟨0x0100⟩, fun _ => GXCommand.setCommandListFirst⟩

/-- A concrete command region whose current slot holds an unrecognized
command kind. -/
def gspUnknownExample : GSPState := ⟨⟨0x0100⟩, fun _ => GXCommand.unknown 0xDEAD⟩

/-- A concrete command region with pending count already zero. -/
def gspZeroExample : GSPState := ⟨⟨0x0007⟩, fun _ => GXCommand.setCommandListFirst⟩

/-- A concrete whole-system start state: every kernel event freshly
created (locked, not permanent), registers zero, no registration yet. -/
def initState : SysState :=
  { events := fun _ => ⟨true, false⟩
    regs := zeroRegs
    gsp := gspExample
    g_event := 0
    g_thread_id := 0
    g_shared_memory := 5
    halted := false }

/-! ### Helper lemmas -/

theorem add32_eq_of_lt {a b : Nat} (h : a + b < u32Mod) : add32 a b = a + b := by
  simp [add32, Nat.mod_eq_of_lt h]

theorem write32_ne (f : RegFile) (a v x : Nat) (h : x ≠ a) :
    write32 f a v x = f x := by
  simp [write32, h]

theorem write32_self (f : RegFile) (a v : Nat) : write32 f a v a = v := by
  simp [write32]

/-- Addresses below the block written by `hwWriteLoop` are untouched. -/
theorem hwWriteLoop_below (n : Nat) :
    ∀ (f : RegFile) (base : Nat) (src : Nat → Nat) (a : Nat),
      a < base + 0x1EB00000 → base + 4 * n + 0x1EB00000 < u32Mod →
      (hwWriteLoop f base src n).1 a = f a := by
  induction n with
  | zero => intro f base src a _ _; rfl
  | succ n ih =>
    intro f base src a ha hbound
    have h1 : add32 base 0x1EB00000 = base + 0x1EB00000 :=
      add32_eq_of_lt (by omega)
    have h2 : add32 base 4 = base + 4 := add32_eq_of_lt (by omega)
    simp only [hwWriteLoop, h1, h2]
    rw [ih _ _ _ _ (by omega) (by omega)]
    exact write32_ne _ _ _ _ (by omega)

/-- Reading back the `i`-th written address after `hwWriteLoop` yields the
`i`-th source word. -/
theorem hwWriteLoop_lookup (n : Nat) :
    ∀ (f : RegFile) (base : Nat) (src : Nat → Nat) (i : Nat),
      i < n → base + 4 * n + 0x1EB00000 < u32Mod →
      (hwWriteLoop f base src n).1 (base + 0x1EB00000 + 4 * i) = src i := by
  induction n with
  | zero => intro f base src i hi _; omega
  | succ n ih =>
    intro f base src i hi hbound
    have h1 : add32 base 0x1EB00000 = base + 0x1EB00000 :=
      add32_eq_of_lt (by omega)
    have h2 : add32 base 4 = base + 4 := add32_eq_of_lt (by omega)
    simp only [hwWriteLoop, h1, h2]
    match i with
    | 0 =>
      rw [hwWriteLoop_below n _ _ _ _ (by omega) (by omega)]
      simpa using write32_self f (base + 0x1EB00000) (src 0)
    | i + 1 =>
      have := ih (write32 f (base + 0x1EB00000) (src 0)) (base + 4)
        (fun j => src (j + 1)) i (by omega) (by omega)
      have harg : base + 4 + 0x1EB00000 + 4 * i = base + 0x1EB00000 + 4 * (i + 1) := by
        omega
      rw [harg] at this
      simpa using this

/-- The words produced by `hwReadLoop` are the register-file contents at
the ascending addresses. -/
theorem hwReadLoop_output (n : Nat) :
    ∀ (f : RegFile) (base : Nat),
      base + 4 * n + 0x1EB00000 < u32Mod →
      (hwReadLoop f base n).2 =
        (List.range n).map (fun i => f (base + 0x1EB00000 + 4 * i)) := by
  induction n with
  | zero => intro f base _; simp [hwReadLoop]
  | succ n ih =>
    intro f base hbound
    have h1 : add32 base 0x1EB00000 = base + 0x1EB00000 :=
      add32_eq_of_lt (by omega)
    have h2 : add32 base 4 = base + 4 := add32_eq_of_lt (by omega)
    simp only [hwReadLoop, h1, h2, read32]
    rw [ih f (base + 4) (by omega)]
    rw [List.range_succ_eq_map]
    simp only [List.map_cons, List.map_map, List.cons.injEq]
    refine ⟨by norm_num, ?_⟩
    apply List.map_congr_left
    intro i _
    simp only [Function.comp, Nat.succ_eq_add_one]
    have harg : base + 4 + 0x1EB00000 + 4 * i = base + 0x1EB00000 + 4 * (i + 1) := by
      omega
    rw [harg]

theorem hwWriteLoop_events_length (n : Nat) :
    ∀ (f : RegFile) (base : Nat) (src : Nat → Nat),
      (hwWriteLoop f base src n).2.length = n := by
  induction n with
  | zero => intro f base src; rfl
  | succ n ih => intro f base src; simp only [hwWriteLoop, List.length_cons, ih]

theorem hwReadLoop_output_length (n : Nat) :
    ∀ (f : RegFile) (base : Nat), (hwReadLoop f base n).2.length = n := by
  induction n with
  | zero => intro f base; rfl
  | succ n ih => intro f base; simp only [hwReadLoop, List.length_cons, ih]

theorem setNumberCommands_number_commands (h : GX_CmdBufferHeader) (v : Nat) :
    (h.setNumberCommands v).number_commands = v % 256 := by
  simp only [GX_CmdBufferHeader.setNumberCommands, GX_CmdBufferHeader.number_commands]
  omega

theorem setNumberCommands_index (h : GX_CmdBufferHeader) (v : Nat) :
    (h.setNumberCommands v).index = h.index := by
  simp only [GX_CmdBufferHeader.setNumberCommands, GX_CmdBufferHeader.index]
  omega

theorem number_commands_lt (h : GX_CmdBufferHeader) : h.number_commands < 256 :=
  Nat.mod_lt _ (by norm_num)

/-- The `u32` decrement of an 8-bit pending count, stored back through
the bit field, is decrement modulo 256. -/
theorem finish_number_commands (s : GSPState) :
    (GX_FinishCommand s).1.header.number_commands =
      (s.header.number_commands + 255) % 256 := by
  simp only [GX_FinishCommand, setNumberCommands_number_commands]
  have hlt : s.header.number_commands < 256 := number_commands_lt _
  simp only [sub32, u32Mod]
  omega

/-- A signaled, permanently latched event survives any single system
step unchanged. -/
theorem sysStep_latched (st : SysState) (h : Nat) (op : SysOp)
    (hinv : st.events h = ⟨false, true⟩) :
    (sysStep st op).events h = ⟨false, true⟩ := by
  unfold sysStep
  by_cases hhalt : st.halted
  · simp [hhalt, hinv]
  · simp only [hhalt, if_false, Bool.false_eq_true]
    cases op with
    | writeHW a sz src => simpa using hinv
    | readHW a sz => simpa using hinv
    | trigger => simpa using hinv
    | registerQueue fl hd =>
      unfold RegisterInterruptRelayQueue
      by_cases h0 : hd = 0
      · simp [h0, hinv]
      · by_cases heq : h = hd
        · subst heq
          simp [h0, hinv, SetEventLocked, SetPermanentLock]
        · simp [h0, heq, hinv]
    | acquire hd =>
      by_cases heq : h = hd
      · subst heq
        simp [acquireEvent, hinv]
      · simp [heq, hinv]

/-- A signaled, permanently latched event survives any sequence of
system operations unchanged. -/
theorem sysRun_latched (ops : List SysOp) :
    ∀ (st : SysState) (h : Nat), st.events h = ⟨false, true⟩ →
      (sysRun st ops).events h = ⟨false, true⟩ := by
  induction ops with
  | nil => intro st h hinv; exact hinv
  | cons op ops ih =>
    intro st h hinv
    exact ih _ _ (sysStep_latched st h op hinv)

/-! ### Claim theorems -/

/-- C1 (counterexample): the claim reads the bound as the mathematical
sum `reg_addr + size < 0x420000`, but the source computes it in `u32`
arithmetic, which wraps: the pair `(0xFFFFFFFC, 4)` violates the
mathematical bound and satisfies the size rule, yet `WriteHWRegs`
performs a register write (the register at the wrapped address changes
from 0 to 7) and records no diagnostic. -/
theorem hwregs_bound_check_wraps :
    0x420000 ≤ 0xFFFFFFFC + 4 ∧ 4 % 4 = 0 ∧
    (WriteHWRegs zeroRegs 0xFFFFFFFC 4 (fun _ => 7)).events =
      [Event.hwWrite 0x1EAFFFFC 7] ∧
    (WriteHWRegs zeroRegs 0xFFFFFFFC 4 (fun _ => 7)).regs 0x1EAFFFFC = 7 ∧
    zeroRegs 0x1EAFFFFC = 0 := by
  exact ⟨by norm_num, rfl, by decide, rfl, rfl⟩

/-- C1 (amended): for every `(reg_addr, size)` whose bound check —
computed, as in the source, in 32-bit wrapping arithmetic — fails, or
whose size is not a multiple of 4, `WriteHWRegs` and `ReadHWRegs` leave
the device register file unchanged, store no destination word, and emit
exactly one diagnostic: all-or-nothing rejection with no partial
access. -/
theorem hwregs_invalid_rejected (regs : RegFile) (reg_addr size : Nat)
    (src : Nat → Nat)
    (h : 0x420000 ≤ add32 reg_addr size ∨ size % 4 ≠ 0) :
    ((WriteHWRegs regs reg_addr size src).regs = regs ∧
     (WriteHWRegs regs reg_addr size src).output = [] ∧
     (∃ t args, (WriteHWRegs regs reg_addr size src).events =
        [Event.errorLog t args])) ∧
    ((ReadHWRegs regs reg_addr size).regs = regs ∧
     (ReadHWRegs regs reg_addr size).output = [] ∧
     (∃ t args, (ReadHWRegs regs reg_addr size).events =
        [Event.errorLog t args])) := by
  rcases h with hb | hs
  · refine ⟨⟨?_, ?_, "Write address out of range", [reg_addr, size], ?_⟩,
      ⟨?_, ?_, "Read address out of range", [reg_addr, size], ?_⟩⟩ <;>
    simp [WriteHWRegs, ReadHWRegs, hb]
  · by_cases hb : 0x420000 ≤ add32 reg_addr size
    · refine ⟨⟨?_, ?_, "Write address out of range", [reg_addr, size], ?_⟩,
        ⟨?_, ?_, "Read address out of range", [reg_addr, size], ?_⟩⟩ <;>
      simp [WriteHWRegs, ReadHWRegs, hb]
    · refine ⟨⟨?_, ?_, "Invalid size", [size], ?_⟩,
        ⟨?_, ?_, "Invalid size", [size], ?_⟩⟩ <;>
      simp [WriteHWRegs, ReadHWRegs, hb, hs]

/-- C1 (witness): the rejection theorem applied to the out-of-range pair
`(0x500000, 4)`. -/
theorem hwregs_invalid_rejected_witness :
    (0x420000 ≤ add32 0x500000 4 ∨ 4 % 4 ≠ 0) ∧
    (((WriteHWRegs zeroRegs 0x500000 4 (fun _ => 7)).regs = zeroRegs ∧
      (WriteHWRegs zeroRegs 0x500000 4 (fun _ => 7)).output = [] ∧
      (∃ t args, (WriteHWRegs zeroRegs 0x500000 4 (fun _ => 7)).events =
         [Event.errorLog t args])) ∧
     ((ReadHWRegs zeroRegs 0x500000 4).regs = zeroRegs ∧
      (ReadHWRegs zeroRegs 0x500000 4).output = [] ∧
      (∃ t args, (ReadHWRegs zeroRegs 0x500000 4).events =
         [Event.errorLog t args]))) :=
  ⟨Or.inl (by decide),
   hwregs_invalid_rejected zeroRegs 0x500000 4 (fun _ => 7) (Or.inl (by decide))⟩

/-- C2: for every valid in-bounds block — `base + 4 * wordCount` below
`0x420000` — writing `wordCount` words with `WriteHWRegs` and then
reading the same range back with `ReadHWRegs` yields exactly the written
words, in the same order. -/
theorem hwregs_write_read_roundtrip (regs : RegFile) (base wc : Nat)
    (src : Nat → Nat) (h : base + 4 * wc < 0x420000) :
    (ReadHWRegs (WriteHWRegs regs base (4 * wc) src).regs base (4 * wc)).output
      = (List.range wc).map src := by
  have hu : u32Mod = 4294967296 := rfl
  have hadd : add32 base (4 * wc) = base + 4 * wc := add32_eq_of_lt (by omega)
  have hb : ¬ 0x420000 ≤ add32 base (4 * wc) := by rw [hadd]; omega
  have hs : (4 * wc) % 4 = 0 := by omega
  have h4 : (4 * wc) / 4 = wc := by omega
  have hwrite : (WriteHWRegs regs base (4 * wc) src).regs
      = (hwWriteLoop regs base src wc).1 := by
    simp [WriteHWRegs, hb, hs, h4]
  have hread : ∀ f : RegFile, (ReadHWRegs f base (4 * wc)).output
      = (hwReadLoop f base wc).2 := by
    intro f
    simp [ReadHWRegs, hb, hs, h4]
  rw [hwrite, hread, hwReadLoop_output wc _ base (by omega)]
  apply List.map_congr_left
  intro i hi
  exact hwWriteLoop_lookup wc regs base src i (List.mem_range.mp hi) (by omega)

/-- C2 (witness): the round trip at `base = 0x400`, two words. -/
theorem hwregs_write_read_roundtrip_witness :
    0x400 + 4 * 2 < 0x420000 ∧
    (ReadHWRegs (WriteHWRegs zeroRegs 0x400 (4 * 2) (fun i => i + 10)).regs
        0x400 (4 * 2)).output = (List.range 2).map (fun i => i + 10) :=
  ⟨by norm_num,
   hwregs_write_read_roundtrip zeroRegs 0x400 2 (fun i => i + 10) (by norm_num)⟩

/-- C3 (counterexample): a write and a read with base register address 2
(not a multiple of 4) but valid bound and size are not rejected: the
write performs a register write at the misaligned address (the register
changes from 0 to 7) and the read performs a register read there. -/
theorem hwregs_misaligned_base_not_rejected :
    2 % 4 ≠ 0 ∧
    (WriteHWRegs zeroRegs 2 4 (fun _ => 7)).events =
      [Event.hwWrite 0x1EB00002 7] ∧
    (WriteHWRegs zeroRegs 2 4 (fun _ => 7)).regs 0x1EB00002 = 7 ∧
    zeroRegs 0x1EB00002 = 0 ∧
    (ReadHWRegs zeroRegs 2 4).events = [Event.hwRead 0x1EB00002] := by
  exact ⟨by decide, by decide, rfl, rfl, by decide⟩

/-- C3 (amended): the base register address's alignment is not validated
at all. For every call whose (wrapping) bound check and size-multiple
check pass, `WriteHWRegs` and `ReadHWRegs` proceed even when the base is
not a multiple of 4, performing all `size / 4` word accesses at the
misaligned addresses; only the bound and the size rule can cause
rejection. -/
theorem hwregs_base_alignment_unchecked (regs : RegFile) (reg_addr size : Nat)
    (src : Nat → Nat) (_ha : reg_addr % 4 ≠ 0)
    (hb : add32 reg_addr size < 0x420000) (hs : size % 4 = 0) :
    WriteHWRegs regs reg_addr size src =
      ⟨(hwWriteLoop regs reg_addr src (size / 4)).1,
       (hwWriteLoop regs reg_addr src (size / 4)).2, []⟩ ∧
    (WriteHWRegs regs reg_addr size src).events.length = size / 4 ∧
    ReadHWRegs regs reg_addr size =
      ⟨regs, (hwReadLoop regs reg_addr (size / 4)).1,
       (hwReadLoop regs reg_addr (size / 4)).2⟩ ∧
    (ReadHWRegs regs reg_addr size).output.length = size / 4 := by
  have hb' : ¬ 0x420000 ≤ add32 reg_addr size := by omega
  refine ⟨?_, ?_, ?_, ?_⟩ <;>
    simp [WriteHWRegs, ReadHWRegs, hb', hs,
      hwWriteLoop_events_length, hwReadLoop_output_length]

/-- C3 (witness): the pass-through theorem applied to the misaligned
base 2 with size 4. -/
theorem hwregs_base_alignment_unchecked_witness :
    (2 % 4 ≠ 0 ∧ add32 2 4 < 0x420000 ∧ 4 % 4 = 0) ∧
    (WriteHWRegs zeroRegs 2 4 (fun _ => 9) =
      ⟨(hwWriteLoop zeroRegs 2 (fun _ => 9) (4 / 4)).1,
       (hwWriteLoop zeroRegs 2 (fun _ => 9) (4 / 4)).2, []⟩ ∧
     (WriteHWRegs zeroRegs 2 4 (fun _ => 9)).events.length = 4 / 4 ∧
     ReadHWRegs zeroRegs 2 4 =
      ⟨zeroRegs, (hwReadLoop zeroRegs 2 (4 / 4)).1,
       (hwReadLoop zeroRegs 2 (4 / 4)).2⟩ ∧
     (ReadHWRegs zeroRegs 2 4).output.length = 4 / 4) :=
  ⟨⟨by decide, by decide, by decide⟩,
   hwregs_base_alignment_unchecked zeroRegs 2 4 (fun _ => 9)
     (by decide) (by decide) (by decide)⟩

/-- C4: every `TriggerCmdReqQueue` invocation processes exactly one
command record — the one at the slot named by the header's current
index — and afterwards (given the protocol invariant that the pending
count is nonzero when the GSP module handles commands) the pending count
is decremented by exactly one while the current index and the slots are
left unchanged. -/
theorem trigger_processes_one_command (s : GSPState)
    (h : 0 < s.header.number_commands) :
    (TriggerCmdReqQueue s).2 =
      execCommand (s.slots s.header.index) ++
        [Event.debugCommandProcessed s.header.index] ∧
    (TriggerCmdReqQueue s).1.header.number_commands =
      s.header.number_commands - 1 ∧
    (TriggerCmdReqQueue s).1.header.index = s.header.index ∧
    (TriggerCmdReqQueue s).1.slots = s.slots := by
  refine ⟨rfl, ?_, ?_, rfl⟩
  · have hfin : (TriggerCmdReqQueue s).1 = (GX_FinishCommand s).1 := rfl
    rw [hfin, finish_number_commands]
    have := number_commands_lt s.header
    omega
  · have hfin : (TriggerCmdReqQueue s).1 = (GX_FinishCommand s).1 := rfl
    rw [hfin]
    exact setNumberCommands_index s.header _

/-- C4 (witness): the dispatch theorem at a concrete region with one
pending no-op command. -/
theorem trigger_processes_one_command_witness :
    0 < gspExample.header.number_commands ∧
    ((TriggerCmdReqQueue gspExample).2 =
      execCommand (gspExample.slots gspExample.header.index) ++
        [Event.debugCommandProcessed gspExample.header.index] ∧
     (TriggerCmdReqQueue gspExample).1.header.number_commands =
       gspExample.header.number_commands - 1 ∧
     (TriggerCmdReqQueue gspExample).1.header.index =
       gspExample.header.index ∧
     (TriggerCmdReqQueue gspExample).1.slots = gspExample.slots) :=
  ⟨by decide, trigger_processes_one_command gspExample (by decide)⟩

/-- C5: dispatching `SET_MEMORY_FILL` with `start1 = 0x1000`,
`end1 = 0x2000`, `value1 = 0xFF`, `start2 = 0x3000`, `end2 = 0x3100`,
`value2 = 0` issues exactly eight single-word register writes with
values `0x200, 0x400, 0x1000, 0xFF, 0x600, 0x620, 0x100, 0` in that
order (followed only by the completion tracker's debug notification). -/
theorem memory_fill_register_writes :
    (TriggerCmdReqQueue ⟨⟨0x0100⟩, fun _ =>
        GXCommand.setMemoryFill 0x1000 0x2000 0xFF 0x3000 0x3100 0x00⟩).2 =
      [Event.regWrite (RegId.memoryFill 0) 0x200,
       Event.regWrite (RegId.memoryFill 1) 0x400,
       Event.regWrite (RegId.memoryFill 2) 0x1000,
       Event.regWrite (RegId.memoryFill 3) 0xFF,
       Event.regWrite (RegId.memoryFill 4) 0x600,
       Event.regWrite (RegId.memoryFill 5) 0x620,
       Event.regWrite (RegId.memoryFill 6) 0x100,
       Event.regWrite (RegId.memoryFill 7) 0x00,
       Event.debugCommandProcessed 0] := by
  decide

/-- C6: dispatching `SET_COMMAND_LIST_LAST` with `address = 0x18000000`
and `size = 0x200` issues exactly the writes `address >> 3` to the
command-processor base register, `size >> 3` to the size register, and
the constant 1 to the trigger register, in that order, and then the
debug sink receives the command-list notification with the original
address and size unchanged. -/
theorem command_list_last_register_writes :
    (TriggerCmdReqQueue ⟨⟨0x0100⟩, fun _ =>
        GXCommand.setCommandListLast 0x18000000 0x200⟩).2 =
      [Event.regWrite (RegId.commandProcessor 2) 0x3000000,
       Event.regWrite (RegId.commandProcessor 0) 0x40,
       Event.regWrite (RegId.commandProcessor 4) 1,
       Event.debugCommandList 0x18000000 0x200,
       Event.debugCommandProcessed 0] := by
  decide

/-- C7: dispatching a record with an unrecognized kind produces no
register write, memory copy or other hardware effect — only the logged
diagnostic carrying the raw kind value and the completion tracker's
debug notification — and the pending count is still decremented by
exactly one because `GX_FinishCommand` still runs. -/
theorem unknown_command_no_effect (s : GSPState) (k : Nat)
    (hk : s.slots s.header.index = GXCommand.unknown k)
    (hc : 0 < s.header.number_commands) :
    (TriggerCmdReqQueue s).2 =
      [Event.errorLog "unknown command" [k],
       Event.debugCommandProcessed s.header.index] ∧
    (∀ e ∈ (TriggerCmdReqQueue s).2, e.isHardwareEffect = false) ∧
    (TriggerCmdReqQueue s).1.header.number_commands =
      s.header.number_commands - 1 := by
  have htrace : (TriggerCmdReqQueue s).2 =
      execCommand (s.slots s.header.index) ++
        [Event.debugCommandProcessed s.header.index] := rfl
  rw [hk] at htrace
  simp only [execCommand] at htrace
  refine ⟨by rw [htrace]; rfl, ?_, ?_⟩
  · intro e he
    rw [htrace] at he
    simp only [List.mem_cons, List.mem_singleton, List.cons_append,
      List.nil_append] at he
    rcases he with rfl | rfl | h
    · rfl
    · rfl
    · simp at h
  · have hfin : (TriggerCmdReqQueue s).1 = (GX_FinishCommand s).1 := rfl
    rw [hfin, finish_number_commands]
    have := number_commands_lt s.header
    omega

/-- C7 (witness): the unknown-kind theorem at a concrete region whose
current slot carries the unrecognized kind `0xDEAD`. -/
theorem unknown_command_no_effect_witness :
    (gspUnknownExample.slots gspUnknownExample.header.index =
       GXCommand.unknown 0xDEAD ∧
     0 < gspUnknownExample.header.number_commands) ∧
    ((TriggerCmdReqQueue gspUnknownExample).2 =
      [Event.errorLog "unknown command" [0xDEAD],
       Event.debugCommandProcessed gspUnknownExample.header.index] ∧
     (∀ e ∈ (TriggerCmdReqQueue gspUnknownExample).2,
        e.isHardwareEffect = false) ∧
     (TriggerCmdReqQueue gspUnknownExample).1.header.number_commands =
       gspUnknownExample.header.number_commands - 1) :=
  ⟨⟨rfl, by decide⟩,
   unknown_command_no_effect gspUnknownExample 0xDEAD rfl (by decide)⟩

/-- C8: `RegisterInterruptRelayQueue` with a zero notification-event
handle always hits the fatal assertion (an unrecoverable protocol
violation) and never returns as a success. -/
theorem register_null_handle_fatal (st : SysState) (flags : Nat) :
    RegisterInterruptRelayQueue st flags 0 =
      SvcResult.assertionFailure "handle is not valid" ∧
    ∀ r, RegisterInterruptRelayQueue st flags 0 ≠ SvcResult.ok r := by
  refine ⟨rfl, ?_⟩
  intro r hA
  simp [RegisterInterruptRelayQueue] at hA

/-- C8 (witness): the fatal-assertion theorem at the concrete initial
system state. -/
theorem register_null_handle_fatal_witness :
    RegisterInterruptRelayQueue initState 0 0 =
      SvcResult.assertionFailure "handle is not valid" ∧
    RegisterInterruptRelayQueue initState 0 0 ≠
      SvcResult.ok (initState, 0, 0, 5) :=
  ⟨(register_null_handle_fatal initState 0).1,
   (register_null_handle_fatal initState 0).2 (initState, 0, 0, 5)⟩

/-- C9: after a successful `RegisterInterruptRelayQueue` call with a
non-null handle to a freshly created (not yet permanently locked) event,
the notification event is signaled and permanently latched: after any
sequence of further system operations — service calls, re-registrations,
guest acquisitions — every check of the event observes it signaled. -/
theorem register_event_permanently_signaled (st : SysState)
    (flags handle : Nat) (hh : handle ≠ 0)
    (hfresh : (st.events handle).permanent_locked = false)
    (ops : List SysOp) :
    ∃ st' ret, RegisterInterruptRelayQueue st flags handle =
        SvcResult.ok (st', ret) ∧
      isSignaled ((sysRun st' ops).events handle) = true := by
  refine ⟨{ st with
      g_event := handle,
      events := fun x =>
        if x = handle then
          SetPermanentLock (SetEventLocked (st.events handle) false) true
        else st.events x },
    (0, st.g_thread_id, st.g_shared_memory), ?_, ?_⟩
  · simp [RegisterInterruptRelayQueue, hh]
  · have hinv : ({ st with
        g_event := handle,
        events := fun x =>
          if x = handle then
            SetPermanentLock (SetEventLocked (st.events handle) false) true
          else st.events x } : SysState).events handle =
        (⟨false, true⟩ : KEvent) := by
      simp [SetEventLocked, SetPermanentLock, hfresh]
    have := sysRun_latched ops _ handle hinv
    simp [isSignaled, this]

/-- C9 (witness): the latching theorem at the concrete initial state,
handle 1, followed by a trigger, an acquisition of the event, a second
registration and another acquisition. -/
theorem register_event_permanently_signaled_witness :
    ((1 : Nat) ≠ 0 ∧ (initState.events 1).permanent_locked = false) ∧
    (∃ st' ret, RegisterInterruptRelayQueue initState 0 1 =
        SvcResult.ok (st', ret) ∧
      isSignaled ((sysRun st' [SysOp.trigger, SysOp.acquire 1,
          SysOp.registerQueue 0 2, SysOp.acquire 1]).events 1) = true) :=
  ⟨⟨by decide, rfl⟩,
   register_event_permanently_signaled initState 0 1 (by decide) rfl
     [SysOp.trigger, SysOp.acquire 1, SysOp.registerQueue 0 2,
      SysOp.acquire 1]⟩

/-- C10: the pending-command count is the 8-bit `number_commands` bit
field, and `GX_FinishCommand` decrements it with no floor — a `u32`
subtraction stored back through the 8-bit field, i.e. decrement modulo
256 — so finishing a command when the count is already 0 wraps it to
255 rather than saturating or failing. -/
theorem pending_count_underflow_wraps (s : GSPState)
    (h : s.header.number_commands = 0) :
    s.header.number_commands < 256 ∧
    (GX_FinishCommand s).1.header.number_commands = 255 ∧
    ∀ t : GSPState, (GX_FinishCommand t).1.header.number_commands =
      (t.header.number_commands + 255) % 256 := by
  refine ⟨number_commands_lt s.header, ?_, finish_number_commands⟩
  rw [finish_number_commands, h]

/-- C10 (witness): the wraparound theorem at a concrete region whose
pending count is zero. -/
theorem pending_count_underflow_wraps_witness :
    gspZeroExample.header.number_commands = 0 ∧
    (gspZeroExample.header.number_commands < 256 ∧
     (GX_FinishCommand gspZeroExample).1.header.number_commands = 255 ∧
     ∀ t : GSPState, (GX_FinishCommand t).1.header.number_commands =
       (t.header.number_commands + 255) % 256) :=
  ⟨rfl, pending_count_underflow_wraps gspZeroExample rfl⟩

end GSP_GPU
